import Mathlib

/-
  Shallow embedding of the quiz-extensions LTI application
  (modules `utils.py` and `views.py`).

  Conventions used throughout:
  * A parsed-JSON object from the LMS is modelled as a structure whose
    fields are `Option`-valued: `none` models an absent key (`dict.get`
    returning Python `None`).
  * Python integers are modelled as `Int`; Python float arithmetic in
    the added-time formula is modelled as exact rational arithmetic
    over `ℚ`, with `math.ceil` as `Int.ceil`.
  * HTTP effects are made explicit: functions that talk to the LMS
    take an oracle describing the LMS responses and return, next to
    their result, the list of LMS calls they issued.
  * A raised Python exception is modelled as `Except.error`.
-/

namespace QuizExtensions

/-- A quiz object from Canvas, i.e. a parsed JSON dictionary:
`id`, `title` and `time_limit` are the keys the code reads. -/
structure CanvasQuiz where
  id : Option Int
  title : Option String
  time_limit : Option Int
deriving DecidableEq, Repr

/-- A course object from Canvas (`get_course` response body). -/
structure CanvasCourse where
  id : Option Int
  name : Option String
deriving DecidableEq, Repr

/-- A user object from Canvas (`get_user` response body). -/
structure CanvasUser where
  id : Option Int
  sortable_name : Option String
  sis_user_id : Option Int
deriving DecidableEq, Repr

/-- The body of a `POST .../quizzes/{id}/extensions` request:
the course id and quiz id from the URL, plus the
`quiz_extensions` list of `(user_id, extra_time)` pairs. -/
structure ExtensionPost where
  course_id : Int
  quiz_id : Option Int
  body : List (Int × Int)
deriving DecidableEq, Repr

/-- The dictionary returned by `extend_quiz`. -/
structure ExtendResult where
  success : Bool
  message : String
  added_time : Option Int
deriving DecidableEq, Repr

/-- Python `str` formatting of an optional integer
(`'{}'.format(x)`: `None` prints as "None"). -/
def pyStrOptInt : Option Int → String
  | none => "None"
  | some n => toString n

/-- Round a rational to the nearest integer, ties to even — the
rounding of the binary64 significand. -/
def roundHalfEven (q : ℚ) : Int :=
  let n := Int.floor q
  let r := q - (n : ℚ)
  if r < 1/2 then n
  else if 1/2 < r then n + 1
  else if n % 2 = 0 then n else n + 1

/-- Binary64 round-to-nearest-even of a positive rational: scale into
the 53-bit significand range `[2^52, 2^53)` using the binary
logarithm, round the significand to the nearest even, and scale back.
Overflow to infinity and subnormal underflow are not modelled; every
value reaching this rounding in the developments below is normal. -/
def rndPos (q : ℚ) : ℚ :=
  (roundHalfEven (q * (2 : ℚ) ^ (-(Int.log 2 q - 52))) : ℚ) * (2 : ℚ) ^ (Int.log 2 q - 52)

/-- The value of a Python float (IEEE-754 binary64, round to nearest,
ties to even) holding the real number `q`. -/
def rnd (q : ℚ) : ℚ :=
  if q = 0 then 0
  else if q < 0 then -rndPos (-q)
  else rndPos q

/-- The float expression `time_limit * ((float(percent)-100) / 100)`
of `utils.extend_quiz` line 42, with every Python float operation
rounding: the int-to-float conversions of `percent` and `time_limit`,
the subtraction, the division by 100 and the final multiplication
each produce a binary64 value (`rnd`). -/
def floatDelta (time_limit percent : Int) : ℚ :=
  rnd (rnd (time_limit : ℚ) * rnd (rnd (rnd (percent : ℚ) - 100) / 100))

/-- The added-time expression of `utils.extend_quiz` line 42:
`math.ceil(time_limit * ((float(percent)-100) / 100) if percent else 0)`.
The conditional sits inside `math.ceil`; Python int truthiness of
`percent` is `percent ≠ 0`; `math.ceil` on a double is exact. -/
def extendDelta (time_limit percent : Int) : Int :=
  Int.ceil (if percent ≠ 0 then floatDelta time_limit percent else (0 : ℚ))

/-- The extension POST that `extend_quiz` issues for a quiz with the
given computed delta and user id list. -/
def mkPost (course_id : Int) (quiz : CanvasQuiz) (delta : Int)
    (user_id_list : List Int) : ExtensionPost :=
  ⟨course_id, quiz.id, user_id_list.map (fun u => (u, delta))⟩

/-- `utils.extend_quiz` (identical to `views.extend_quiz` textually):
computes the added time, POSTs a quiz extension for all users, and
returns the structured result.  `postStatus` is the LMS oracle giving
the HTTP status code of the POST; the second component is the list of
POSTs actually issued. -/
def extend_quiz (course_id : Int) (quiz : CanvasQuiz) (percent : Int)
    (user_id_list : List Int) (postStatus : ExtensionPost → Nat) :
    ExtendResult × List ExtensionPost :=
  let quiz_id := quiz.id
  match quiz.time_limit with
  | none =>
      (⟨true,
        "Quiz #" ++ pyStrOptInt quiz_id ++ " has no time limit, so there is no time to add.",
        none⟩, [])
  | some time_limit =>
      if time_limit < 1 then
        (⟨true,
          "Quiz #" ++ pyStrOptInt quiz_id ++ " has no time limit, so there is no time to add.",
          none⟩, [])
      else
        let added_time := extendDelta time_limit percent
        let post := mkPost course_id quiz added_time user_id_list
        let status := postStatus post
        if status == 200 then
          (⟨true,
            "Successfully added " ++ toString added_time ++ " minutes to quiz #"
              ++ pyStrOptInt quiz_id,
            some added_time⟩, [post])
        else
          (⟨false,
            "Error creating extension for quiz #" ++ pyStrOptInt quiz_id
              ++ ". Canvas status code: " ++ toString status,
            none⟩, [post])

/-- A local `Quiz` row (the `models.py` schema is mirrored from how
`views.update` constructs rows: `Quiz(quiz_id, course_id, quiz_title)`
where `quiz_id = quiz.get('id', None)` may be `None`). -/
structure QuizRow where
  canvas_id : Option Int
  course_id : Int
  title : String
deriving DecidableEq, Repr

/-- `utils.missing_quizzes`, as a pure function of the LMS quiz list
(the `get_quizzes` result) and the local `Quiz` table.  Matches via
`canvas_quiz.get('id')` and `Quiz.query.filter_by(canvas_id=...)`. -/
def missing_quizzes_utils (table : List QuizRow) (quickcheck : Bool) :
    List CanvasQuiz → List CanvasQuiz
  | [] => []
  | q :: rest =>
      if table.any (fun row => row.canvas_id == q.id) then
        missing_quizzes_utils table quickcheck rest
      else if quickcheck then [q]
      else q :: missing_quizzes_utils table quickcheck rest

/-- Python attribute access `canvas_quiz.id` on a parsed-JSON quiz.
A plain Python dict has no `id` attribute, whatever its keys, so this
always raises `AttributeError` (Python 2 semantics of `views.py`).
The argument is kept to mirror the source expression. -/
def dictAttrId (_q : CanvasQuiz) : Except String Int :=
  Except.error "AttributeError: dict object has no attribute id"

/-- `views.missing_quizzes`: identical to the utils version except
that it matches via attribute access `canvas_quiz.id` instead of
`canvas_quiz.get('id')`. -/
def missing_quizzes_views (table : List QuizRow) (quickcheck : Bool) :
    List CanvasQuiz → Except String (List CanvasQuiz)
  | [] => Except.ok []
  | q :: rest => do
      let i ← dictAttrId q
      if table.any (fun row => row.canvas_id == some i) then
        missing_quizzes_views table quickcheck rest
      else if quickcheck then Except.ok [q]
      else do
        let ms ← missing_quizzes_views table quickcheck rest
        Except.ok (q :: ms)

/-- The parts of a `search_users` LMS response that the code inspects:
whether `'errors' in user_list` holds for the response body, the user
list itself (users abstracted to their ids), and the page number that
page-count extraction would recover from the `links['last']` header
(`none` when the header chain `links['last']['url']` / its `page`
query parameter is absent, in which case the extraction raises). -/
structure UsersResponse where
  body_is_error : Bool
  user_list : List Int
  link_last_page : Option Int
deriving DecidableEq, Repr

/-- `utils.search_users` viewed as a function of the LMS response:
an error body short-circuits to `([], 0)`; otherwise the page count is
extracted from the `last` link, raising (`Except.error`) when that
link is missing. -/
def search_users (resp : UsersResponse) : Except String (List Int × Int) :=
  if resp.body_is_error then
    Except.ok ([], 0)
  else
    match resp.link_last_page with
    | none => Except.error "KeyError: last"
    | some num_pages => Except.ok (resp.user_list, num_pages)

/-- A local `Course` row (mirrored from `Course(course_id, course_name)`
as constructed in `views.update`). -/
structure CourseRow where
  canvas_id : Int
  course_name : String
deriving DecidableEq, Repr

/-- A local `User` row (mirrored from
`User(sortable_name, canvas_user_id, sis_id)` in `views.update`; the
`canvas_id` stored is `canvas_user.get('id')`, which may be absent). -/
structure UserRow where
  sortable_name : String
  canvas_id : Option Int
  sis_id : Option Int
deriving DecidableEq, Repr

/-- A local `Extension` row.  `views.update` constructs
`Extension(course_id, user_id, percent)`.  Modelled from the spec:
`models.py` is not among the sources, and the spec data model gives
Extension the additional boolean field `active`, defaulting to true on
creation, meant to be flipped to false when the LMS user disappears. -/
structure ExtensionRow where
  course_id : Int
  user_id : Int
  percent : Int
  active : Bool
deriving DecidableEq, Repr

/-- The local database. -/
structure Db where
  courses : List CourseRow
  users : List UserRow
  extensions : List ExtensionRow
  quizzes : List QuizRow
deriving DecidableEq, Repr

/-- The LMS oracle for a fixed course id: the `get_course` body, the
`get_user` responses (`none` models a 404, raised by
`raise_for_status` as `requests.exceptions.HTTPError`), the
`get_quizzes` list, and the status code of each extension POST. -/
structure Lms where
  course : CanvasCourse
  user : Int → Option CanvasUser
  quizzes : List CanvasQuiz
  postStatus : ExtensionPost → Nat

/-- One entry of the log of HTTP calls issued against the LMS. -/
inductive LmsCall where
  | getCourse (course_id : Int)
  | getUser (user_id : Int)
  | getQuizzes (course_id : Int)
  | postExtensions (post : ExtensionPost)
deriving DecidableEq, Repr

/-- SQLAlchemy-style in-place mutation of the first row matching a
predicate (`query.filter_by(...).first()` followed by attribute
assignment and commit). -/
def updateFirst (p : α → Bool) (f : α → α) : List α → List α
  | [] => []
  | x :: xs => if p x then f x :: xs else x :: updateFirst p f xs

/-- The JSON body of an `update` request: `post_json.get('user_ids', [])`
and `post_json.get('percent', None)`. -/
structure UpdateBody where
  user_ids : Option (List Int)
  percent : Option Int
deriving DecidableEq, Repr

/-- The course upsert at the top of `views.update`: look the course up
by `canvas_id`; create it when absent, else overwrite its fields. -/
def upsertCourse (course_id : Int) (course_name : String)
    (courses : List CourseRow) : List CourseRow :=
  match courses.find? (fun c => c.canvas_id == course_id) with
  | none => courses ++ [⟨course_id, course_name⟩]
  | some _ =>
      updateFirst (fun c => c.canvas_id == course_id)
        (fun _c => ⟨course_id, course_name⟩) courses

/-- The extension upsert inside the user loop of `views.update`:
`Extension.query.filter_by(course_id=..., user_id=...).first()`, then
either create `Extension(course_id, user_id, percent)` (active by
default, per the spec-modelled schema) or set `extension.percent`. -/
def upsertExtension (course_id user_id percent : Int)
    (extensions : List ExtensionRow) : List ExtensionRow :=
  match extensions.find? (fun e => e.course_id == course_id && e.user_id == user_id) with
  | none => extensions ++ [⟨course_id, user_id, percent, true⟩]
  | some _ =>
      updateFirst (fun e => e.course_id == course_id && e.user_id == user_id)
        (fun e => ⟨e.course_id, e.user_id, percent, e.active⟩) extensions

/-- One iteration of the user loop of `views.update`: fetch the user
from the LMS (the GET is issued either way); on `HTTPError` skip the
id entirely (`continue`), otherwise upsert the `User` row (matched by
`canvas_id == user_id`) and the `Extension` row. -/
def processUser (lms : Lms) (course_id percent user_id : Int) (db : Db) :
    Db × List LmsCall :=
  match lms.user user_id with
  | none => (db, [LmsCall.getUser user_id])
  | some canvas_user =>
      let sortable_name := canvas_user.sortable_name.getD "<MISSING NAME>"
      let canvas_user_id := canvas_user.id
      let sis_id := canvas_user.sis_user_id
      let users1 :=
        match db.users.find? (fun u => u.canvas_id == some user_id) with
        | none => db.users ++ [⟨sortable_name, canvas_user_id, sis_id⟩]
        | some _ =>
            updateFirst (fun u => u.canvas_id == some user_id)
              (fun _u => ⟨sortable_name, canvas_user_id, sis_id⟩) db.users
      let extensions1 := upsertExtension course_id user_id percent db.extensions
      (⟨db.courses, users1, extensions1, db.quizzes⟩, [LmsCall.getUser user_id])

/-- The user loop of `views.update` over the whole `user_ids` list. -/
def processUsers (lms : Lms) (course_id percent : Int) :
    List Int → Db → Db × List LmsCall
  | [], db => (db, [])
  | user_id :: rest, db =>
      let step := processUser lms course_id percent user_id db
      let r := processUsers lms course_id percent rest step.1
      (r.1, step.2 ++ r.2)

/-- The quiz upsert inside the quiz loop of `views.update`. -/
def upsertQuiz (course_id : Int) (quiz : CanvasQuiz)
    (quizzes : List QuizRow) : List QuizRow :=
  let quiz_id := quiz.id
  let quiz_title := quiz.title.getD "[UNTITLED QUIZ]"
  match quizzes.find? (fun r => r.canvas_id == quiz_id) with
  | none => quizzes ++ [⟨quiz_id, course_id, quiz_title⟩]
  | some _ =>
      updateFirst (fun r => r.canvas_id == quiz_id)
        (fun _r => ⟨quiz_id, course_id, quiz_title⟩) quizzes

/-- The outcome of the quiz loop of `views.update`: the abort message
when some extension push failed, the database after the loop, the LMS
calls issued, and the `quiz_time_list` / `unchanged_quiz_time_list`
accumulators (quizzes abstracted to their titles). -/
structure QuizLoopResult where
  abort : Option String
  db : Db
  calls : List LmsCall
  quiz_time_list : List (String × Int)
  unchanged_list : List String
deriving DecidableEq, Repr

/-- The quiz loop of `views.update`: upsert the local `Quiz` row, call
`extend_quiz`, and on success accumulate the quiz in the changed or
unchanged list; on failure return that failure message at once,
abandoning the remaining quizzes. -/
def processQuizzes (lms : Lms) (course_id percent : Int) (user_ids : List Int) :
    List CanvasQuiz → Db → QuizLoopResult
  | [], db => ⟨none, db, [], [], []⟩
  | quiz :: rest, db =>
      let quiz_title := quiz.title.getD "[UNTITLED QUIZ]"
      let db1 : Db := ⟨db.courses, db.users, db.extensions, upsertQuiz course_id quiz db.quizzes⟩
      let er := extend_quiz course_id quiz percent user_ids lms.postStatus
      if er.1.success then
        let r := processQuizzes lms course_id percent user_ids rest db1
        match er.1.added_time with
        | some t =>
            ⟨r.abort, r.db, er.2.map LmsCall.postExtensions ++ r.calls,
             (quiz_title, t) :: r.quiz_time_list, r.unchanged_list⟩
        | none =>
            ⟨r.abort, r.db, er.2.map LmsCall.postExtensions ++ r.calls,
             r.quiz_time_list, quiz_title :: r.unchanged_list⟩
      else
        ⟨some er.1.message, db1, er.2.map LmsCall.postExtensions, [], []⟩

/-- The distinct responses `views.update` can produce. -/
inductive UpdateResult where
  | invalidRequest
  | percentRequired
  | noQuizzes
  | updateError (message : String)
  | updateSuccess (message : String)
      (quiz_list : List (String × Int)) (unchanged_list : List String)
deriving DecidableEq, Repr

/-- The `"{} {} been updated"` pluralisation of the success message. -/
def quizzesHave (n : Nat) : String :=
  if n != 1 then "quizzes have" else "quiz has"

/-- The success message format string of `views.update`. -/
def successMessage (nChanged nUsers : Nat) (percent : Int) (nUnchanged : Nat) : String :=
  "Success! " ++ toString nChanged ++ " " ++ quizzesHave nChanged
    ++ " been updated for " ++ toString nUsers ++ " student(s) to have "
    ++ toString percent ++ "% time. " ++ toString nUnchanged ++ " "
    ++ quizzesHave nUnchanged ++ " no time limit and were left unchanged."

/-- The body of `views.update` after input validation: run the user
loop, fetch the quizzes (bail out when there are none), run the quiz
loop, and assemble the response.  `db1` is the database after the
course upsert. -/
def updateMain (course_id percent : Int) (user_ids : List Int)
    (lms : Lms) (db1 : Db) : UpdateResult × Db × List LmsCall :=
  let ur := processUsers lms course_id percent user_ids db1
  if lms.quizzes.length < 1 then
    (UpdateResult.noQuizzes, ur.1,
     LmsCall.getCourse course_id :: ur.2 ++ [LmsCall.getQuizzes course_id])
  else
    let qr := processQuizzes lms course_id percent user_ids lms.quizzes ur.1
    ((match qr.abort with
      | some msg => UpdateResult.updateError msg
      | none =>
          UpdateResult.updateSuccess
            (successMessage qr.quiz_time_list.length user_ids.length percent
              qr.unchanged_list.length)
            qr.quiz_time_list qr.unchanged_list),
     qr.db,
     LmsCall.getCourse course_id :: ur.2
       ++ LmsCall.getQuizzes course_id :: qr.calls)

/-- `views.update`: validate the JSON body, fetch and upsert the
course, validate `percent`, then run the main loops.  Returns
`(response, final db, LMS call log)`. -/
def update (course_id : Int) (post_json : Option UpdateBody)
    (lms : Lms) (db : Db) : UpdateResult × Db × List LmsCall :=
  match post_json with
  | none => (UpdateResult.invalidRequest, db, [])
  | some body =>
      let course_name := lms.course.name.getD "<UNNAMED COURSE>"
      let db1 : Db := ⟨upsertCourse course_id course_name db.courses,
                       db.users, db.extensions, db.quizzes⟩
      let user_ids := body.user_ids.getD []
      match body.percent with
      | none => (UpdateResult.percentRequired, db1, [LmsCall.getCourse course_id])
      | some percent =>
          if percent == 0 then
            (UpdateResult.percentRequired, db1, [LmsCall.getCourse course_id])
          else
            updateMain course_id percent user_ids lms db1

/-- The `percent_user_map` grouping of `views.refresh`: a
`defaultdict(list)` keyed by each extension row's percent, built left
to right in first-appearance order, each group holding its user ids
in row order. -/
def percentGroupsAcc (exts : List ExtensionRow)
    (acc : List (Int × List Int)) : List (Int × List Int) :=
  match exts with
  | [] => acc
  | e :: rest =>
      let acc1 :=
        if (acc.find? (fun g => g.1 == e.percent)).isSome then
          updateFirst (fun g => g.1 == e.percent)
            (fun g => (g.1, g.2 ++ [e.user_id])) acc
        else acc ++ [(e.percent, [e.user_id])]
      percentGroupsAcc rest acc1

/-- `views.refresh` (the `/refresh/<course_id>/2` handler in
`views.py`): look the course up locally; when found, group its
extension rows by percent, compute the missing quizzes with the
views-module `missing_quizzes` (attribute access on parsed dicts),
and push an `extend_quiz` per missing quiz per percent group.  It
writes nothing to the database.  `course.extensions` is modelled as
the extension rows whose `course_id` matches (the relationship is
declared in the absent `models.py`); whether that relationship also
filters on `active` does not affect the results proved below, which
only concern the database and the absence of user lookups.  Returns
`(outcome, db, LMS call log)` where the outcome is
`Except.error` for a raised exception and otherwise the optional
response string. -/
def refresh (lms : Lms) (course_id : Int) (db : Db) :
    Except String (Option String) × Db × List LmsCall :=
  match db.courses.find? (fun c => c.canvas_id == course_id) with
  | none => (Except.ok (some "Course not found"), db, [])
  | some _ =>
      let exts := db.extensions.filter (fun e => e.course_id == course_id)
      let percent_user_map := percentGroupsAcc exts []
      match missing_quizzes_views db.quizzes false lms.quizzes with
      | Except.error e => (Except.error e, db, [LmsCall.getQuizzes course_id])
      | Except.ok missing =>
          let posts :=
            missing.flatMap (fun quiz =>
              percent_user_map.flatMap (fun g =>
                (extend_quiz course_id quiz g.1 g.2 lms.postStatus).2))
          (Except.ok none, db,
           LmsCall.getQuizzes course_id :: posts.map LmsCall.postExtensions)

/-! Theorems.  First, evaluation lemmas for the binary64 rounding. -/

/-- Rounding an integer to the nearest integer is the identity. -/
theorem roundHalfEven_intCast (n : Int) : roundHalfEven (n : ℚ) = n := by
  unfold roundHalfEven
  simp [Int.floor_intCast]

/-- Evaluation rule for `rnd` on a positive rational once its binade
`[2^e, 2^(e+1))` is known. -/
theorem rnd_eval (q : ℚ) (e : Int) (hq : 0 < q)
    (h1 : (2 : ℚ) ^ e ≤ q) (h2 : q < (2 : ℚ) ^ (e + 1)) :
    rnd q = (roundHalfEven (q * (2 : ℚ) ^ (52 - e)) : ℚ) * (2 : ℚ) ^ (e - 52) := by
  have hlog : Int.log 2 q = e := by
    have hle : e ≤ Int.log 2 q := (Int.zpow_le_iff_le_log (by norm_num) hq).mp h1
    have hlt : Int.log 2 q < e + 1 := (Int.lt_zpow_iff_log_lt (by norm_num) hq).mp h2
    omega
  unfold rnd rndPos
  rw [if_neg (ne_of_gt hq), if_neg (not_lt.mpr hq.le), hlog]
  have h52 : -(e - 52) = 52 - e := by ring
  rw [h52]

/-- Integers below `2^53` are exactly representable as doubles. -/
theorem rnd_intCast (n : Int) (h0 : 0 < n) (h53 : n < 2 ^ 53) : rnd (n : ℚ) = (n : ℚ) := by
  have hq : (0 : ℚ) < (n : ℚ) := by exact_mod_cast h0
  have he0 : 0 ≤ Int.log 2 ((n : ℚ)) := by
    have h1n : (2 : ℚ) ^ (0 : Int) ≤ (n : ℚ) := by
      simpa using (by exact_mod_cast h0 : (1 : ℚ) ≤ (n : ℚ))
    exact (Int.zpow_le_iff_le_log (by norm_num) hq).mp h1n
  have he52 : Int.log 2 ((n : ℚ)) ≤ 52 := by
    have hlt : (n : ℚ) < (2 : ℚ) ^ (53 : Int) := by
      rw [show (53 : Int) = ((53 : Nat) : Int) from rfl, zpow_natCast]
      exact_mod_cast h53
    have h' : Int.log 2 ((n : ℚ)) < 53 := (Int.lt_zpow_iff_log_lt (by norm_num) hq).mp hlt
    omega
  set e := Int.log 2 ((n : ℚ)) with he
  unfold rnd rndPos
  rw [if_neg (ne_of_gt hq), if_neg (not_lt.mpr hq.le), ← he]
  have hm : (n : ℚ) * (2 : ℚ) ^ (-(e - 52)) = ((n * 2 ^ (52 - e).toNat : Int) : ℚ) := by
    have h1 : -(e - 52) = (((52 - e).toNat : Nat) : Int) := by omega
    rw [h1, zpow_natCast]
    push_cast
    ring
  rw [hm, roundHalfEven_intCast]
  push_cast
  rw [mul_assoc, ← zpow_natCast (2 : ℚ) ((52 - e).toNat), ← zpow_add₀ (by norm_num : (2:ℚ) ≠ 0)]
  have hz : (((52 - e).toNat : Nat) : Int) + (e - 52) = 0 := by omega
  rw [hz]
  simp

/-- The double nearest `7/100` (the value of Python `7.0/100`) lies
above `0.07`: its significand `7/100 * 2^56 = 5044031582654955.52`
rounds up. -/
theorem rnd_7_div_100 : rnd ((7 : ℚ)/100) = 5044031582654956 / 72057594037927936 := by
  rw [rnd_eval ((7 : ℚ)/100) (-4) (by norm_num) (by norm_num) (by norm_num)]
  have he : (52 : Int) - (-4) = 56 := by norm_num
  have he2 : (-4 : Int) - 52 = -56 := by norm_num
  rw [he, he2]
  have harg : (7 : ℚ)/100 * (2 : ℚ) ^ (56 : Int) = 126100789566373888/25 := by
    norm_num
  rw [harg]
  have hfl : Int.floor ((126100789566373888 : ℚ)/25) = 5044031582654955 := by
    rw [Int.floor_eq_iff]
    norm_num
  have hrh : roundHalfEven ((126100789566373888 : ℚ)/25) = 5044031582654956 := by
    unfold roundHalfEven
    rw [hfl, if_neg (by norm_num), if_pos (by norm_num)]
    norm_num
  rw [hrh]
  norm_num

/-- The double product `100 * (7.0/100)`: its significand
`.../2^52 * 2^50 = 7881299347898368.75` rounds up, landing strictly
above 7 (Python prints it as `7.000000000000001`). -/
theorem rnd_prod_107 :
    rnd ((31525197391593475 : ℚ)/4503599627370496)
      = 7881299347898369/1125899906842624 := by
  rw [rnd_eval ((31525197391593475 : ℚ)/4503599627370496) 2 (by norm_num) (by norm_num)
    (by norm_num)]
  have he : (52 : Int) - 2 = 50 := by norm_num
  have he2 : (2 : Int) - 52 = -50 := by norm_num
  rw [he, he2]
  have harg : (31525197391593475 : ℚ)/4503599627370496 * (2 : ℚ) ^ (50 : Int)
      = 31525197391593475/4 := by
    norm_num
  rw [harg]
  have hfl : Int.floor ((31525197391593475 : ℚ)/4) = 7881299347898368 := by
    rw [Int.floor_eq_iff]
    norm_num
  have hrh : roundHalfEven ((31525197391593475 : ℚ)/4) = 7881299347898369 := by
    unfold roundHalfEven
    rw [hfl, if_neg (by norm_num), if_pos (by norm_num)]
    norm_num
  rw [hrh]
  norm_num

/-- The full float chain at `time_limit = 100`, `percent = 107`. -/
theorem floatDelta_100_107 :
    floatDelta 100 107 = 7881299347898369/1125899906842624 := by
  unfold floatDelta
  rw [rnd_intCast 107 (by norm_num) (by norm_num)]
  rw [show ((107 : Int) : ℚ) - 100 = ((7 : Int) : ℚ) by push_cast; norm_num]
  rw [rnd_intCast 7 (by norm_num) (by norm_num)]
  rw [show ((7 : Int) : ℚ) / 100 = (7 : ℚ)/100 by push_cast; ring]
  rw [rnd_7_div_100]
  rw [rnd_intCast 100 (by norm_num) (by norm_num)]
  rw [show ((100 : Int) : ℚ) * ((5044031582654956 : ℚ)/72057594037927936)
      = (31525197391593475 : ℚ)/4503599627370496 by push_cast; norm_num]
  rw [rnd_prod_107]

/-- At `time_limit = 100`, `percent = 107` the code computes 8. -/
theorem extendDelta_100_107 : extendDelta 100 107 = 8 := by
  unfold extendDelta
  rw [if_pos (by norm_num : (107 : Int) ≠ 0), floatDelta_100_107]
  rw [Int.ceil_eq_iff]
  norm_num

/-- The float chain at `time_limit = 10`, `percent = 200` is exact. -/
theorem floatDelta_10_200 : floatDelta 10 200 = ((10 : Int) : ℚ) := by
  unfold floatDelta
  rw [rnd_intCast 200 (by norm_num) (by norm_num)]
  rw [show ((200 : Int) : ℚ) - 100 = ((100 : Int) : ℚ) by push_cast; norm_num]
  rw [rnd_intCast 100 (by norm_num) (by norm_num)]
  rw [show ((100 : Int) : ℚ) / 100 = ((1 : Int) : ℚ) by push_cast; norm_num]
  rw [rnd_intCast 1 (by norm_num) (by norm_num)]
  rw [rnd_intCast 10 (by norm_num) (by norm_num)]
  rw [show ((10 : Int) : ℚ) * ((1 : Int) : ℚ) = ((10 : Int) : ℚ) by push_cast; norm_num]
  rw [rnd_intCast 10 (by norm_num) (by norm_num)]

/-- At `time_limit = 10`, `percent = 200` the code computes 10. -/
theorem extendDelta_10_200 : extendDelta 10 200 = 10 := by
  unfold extendDelta
  rw [if_pos (by norm_num : (200 : Int) ≠ 0), floatDelta_10_200, Int.ceil_intCast]

/-- The float chain at `time_limit = 30`, `percent = 200` is exact. -/
theorem floatDelta_30_200 : floatDelta 30 200 = ((30 : Int) : ℚ) := by
  unfold floatDelta
  rw [rnd_intCast 200 (by norm_num) (by norm_num)]
  rw [show ((200 : Int) : ℚ) - 100 = ((100 : Int) : ℚ) by push_cast; norm_num]
  rw [rnd_intCast 100 (by norm_num) (by norm_num)]
  rw [show ((100 : Int) : ℚ) / 100 = ((1 : Int) : ℚ) by push_cast; norm_num]
  rw [rnd_intCast 1 (by norm_num) (by norm_num)]
  rw [rnd_intCast 30 (by norm_num) (by norm_num)]
  rw [show ((30 : Int) : ℚ) * ((1 : Int) : ℚ) = ((30 : Int) : ℚ) by push_cast; norm_num]
  rw [rnd_intCast 30 (by norm_num) (by norm_num)]

/-- At `time_limit = 30`, `percent = 200` the code computes 30. -/
theorem extendDelta_30_200 : extendDelta 30 200 = 30 := by
  unfold extendDelta
  rw [if_pos (by norm_num : (200 : Int) ≠ 0), floatDelta_30_200, Int.ceil_intCast]

/-- C1 counterexample: at `time_limit = 100`, `percent = 107` the
double-precision evaluation of `utils.py` line 42 computes
`100 * (7.0/100) = 7.000000000000001` and `math.ceil` returns 8,
while `ceil(100 * (107 - 100) / 100) = 7`: the added time returned by
`extend_quiz` is not the exact ceiling. -/
theorem extend_quiz_added_time_counterexample :
    (extend_quiz 1 ⟨some 4, some "Quiz 4", some 100⟩ 107 [11] (fun _p => 200)).1.added_time
      = some 8
    ∧ Int.ceil ((100 : ℚ) * ((107 : ℚ) - 100) / 100) = 7
    ∧ (extend_quiz 1 ⟨some 4, some "Quiz 4", some 100⟩ 107 [11] (fun _p => 200)).1.added_time
      ≠ some (Int.ceil ((100 : ℚ) * ((107 : ℚ) - 100) / 100)) := by
  have hceil : Int.ceil ((100 : ℚ) * ((107 : ℚ) - 100) / 100) = 7 := by norm_num
  have hval : (extend_quiz 1 ⟨some 4, some "Quiz 4", some 100⟩ 107 [11]
      (fun _p => 200)).1.added_time = some (extendDelta 100 107) := by
    simp [extend_quiz]
  refine ⟨?_, hceil, ?_⟩
  · rw [hval, extendDelta_100_107]
  · rw [hval, extendDelta_100_107, hceil]
    simp

/-- C1 amended: for every quiz with an integer time limit of at least
1 and every non-zero percent, the added time computed and returned by
`extend_quiz` equals `math.ceil` of the double-precision evaluation of
`time_limit * ((percent - 100) / 100)`; that agrees with the exact
`ceil(time_limit * (percent - 100) / 100)` whenever the float chain is
exact — in particular the computed delta is 10 for
`time_limit = 10, percent = 200` and 30 for
`time_limit = 30, percent = 200` — but not in general (it is 8, not 7,
at `time_limit = 100, percent = 107`). -/
theorem extend_quiz_added_time_float
    (course_id : Int) (quiz : CanvasQuiz) (t percent : Int)
    (user_id_list : List Int) (postStatus : ExtensionPost → Nat)
    (ht : quiz.time_limit = some t) (h1 : 1 ≤ t) (hp : percent ≠ 0)
    (hok : postStatus (mkPost course_id quiz (extendDelta t percent) user_id_list) = 200) :
    extendDelta t percent = Int.ceil (floatDelta t percent)
    ∧ (extend_quiz course_id quiz percent user_id_list postStatus).1.added_time
        = some (Int.ceil (floatDelta t percent))
    ∧ (floatDelta t percent = (t : ℚ) * ((percent : ℚ) - 100) / 100 →
        extendDelta t percent = Int.ceil ((t : ℚ) * ((percent : ℚ) - 100) / 100))
    ∧ extendDelta 10 200 = 10 ∧ extendDelta 30 200 = 30 := by
  have hform : extendDelta t percent = Int.ceil (floatDelta t percent) := by
    unfold extendDelta
    rw [if_pos hp]
  refine ⟨hform, ?_, ?_, extendDelta_10_200, extendDelta_30_200⟩
  · simp only [extend_quiz, ht, hok, beq_self_eq_true, if_true, if_neg (by omega : ¬ t < 1)]
    rw [hform]
  · intro hexact
    rw [hform, hexact]

/-- Witness for C1 amended at `time_limit = 10`, `percent = 200`. -/
theorem extend_quiz_added_time_float_witness :
    (1 : Int) ≤ 10 ∧ (200 : Int) ≠ 0
    ∧ (extend_quiz 1 ⟨some 4, some "Quiz 4", some 10⟩ 200 [11] (fun _p => 200)).1.added_time
        = some (Int.ceil (floatDelta 10 200)) :=
  ⟨by norm_num, by norm_num,
   (extend_quiz_added_time_float 1 ⟨some 4, some "Quiz 4", some 10⟩ 10 200 [11]
      (fun _p => 200) rfl (by norm_num) (by norm_num) rfl).2.1⟩

/-- C2: for every quiz whose time limit is absent or below 1,
`extend_quiz` returns success with `added_time = none` and issues no
extension POST, for every course id, percent and user id list. -/
theorem extend_quiz_no_time_limit
    (course_id : Int) (quiz : CanvasQuiz) (percent : Int)
    (user_id_list : List Int) (postStatus : ExtensionPost → Nat)
    (h : quiz.time_limit = none ∨ ∃ t, quiz.time_limit = some t ∧ t < 1) :
    (extend_quiz course_id quiz percent user_id_list postStatus).1.success = true
    ∧ (extend_quiz course_id quiz percent user_id_list postStatus).1.added_time = none
    ∧ (extend_quiz course_id quiz percent user_id_list postStatus).2 = [] := by
  rcases h with h | ⟨t, ht, hlt⟩
  · simp [extend_quiz, h]
  · simp [extend_quiz, ht, if_pos hlt]

/-- Witness for C2 on a quiz with no `time_limit` key. -/
theorem extend_quiz_no_time_limit_witness :
    ((⟨some 7, some "Quiz 7", none⟩ : CanvasQuiz).time_limit = none
        ∨ ∃ t, (⟨some 7, some "Quiz 7", none⟩ : CanvasQuiz).time_limit = some t ∧ t < 1)
    ∧ (extend_quiz 1 ⟨some 7, some "Quiz 7", none⟩ 200 [11] (fun _p => 200)).1.success = true
    ∧ (extend_quiz 1 ⟨some 7, some "Quiz 7", none⟩ 200 [11] (fun _p => 200)).1.added_time = none
    ∧ (extend_quiz 1 ⟨some 7, some "Quiz 7", none⟩ 200 [11] (fun _p => 200)).2 = [] :=
  ⟨Or.inl rfl,
   extend_quiz_no_time_limit 1 ⟨some 7, some "Quiz 7", none⟩ 200 [11]
     (fun _p => 200) (Or.inl rfl)⟩

/-- C4: `utils.missing_quizzes` returns exactly the LMS quizzes that
have no local `Quiz` row with the same `canvas_id`, in LMS order, and
with `quickcheck = true` it returns the first missing quiz only
(`take 1` of that filtered list, hence at most one entry). -/
theorem missing_quizzes_utils_filter (table : List QuizRow) (lms_list : List CanvasQuiz) :
    missing_quizzes_utils table false lms_list
      = lms_list.filter (fun q => !(table.any (fun row => row.canvas_id == q.id)))
    ∧ missing_quizzes_utils table true lms_list
      = (lms_list.filter (fun q => !(table.any (fun row => row.canvas_id == q.id)))).take 1 := by
  induction lms_list with
  | nil => exact ⟨rfl, rfl⟩
  | cons q rest ih =>
      by_cases hq : (table.any (fun row => row.canvas_id == q.id)) = true
      · constructor
        · simpa [missing_quizzes_utils, hq] using ih.1
        · simpa [missing_quizzes_utils, hq] using ih.2
      · constructor
        · simp only [missing_quizzes_utils, if_neg hq, if_neg (by simp : ¬ false = true)]
          simp [List.filter_cons, hq, ih.1]
        · simp only [missing_quizzes_utils, if_neg hq, if_pos rfl]
          simp [List.filter_cons, hq]

/-- C9 counterexample: on the singleton LMS list containing the plain
dictionary `{id: 1, title: "Quiz 1", time_limit: 10}` and an empty
local table, the views-module `missing_quizzes` does not agree with
the utils-module one (it raises AttributeError). -/
theorem missing_quizzes_views_ne_utils_on_dicts :
    missing_quizzes_views [] false [⟨some 1, some "Quiz 1", some 10⟩]
      ≠ Except.ok (missing_quizzes_utils [] false [⟨some 1, some "Quiz 1", some 10⟩]) := by
  have h : missing_quizzes_views [] false [⟨some 1, some "Quiz 1", some 10⟩]
      = Except.error "AttributeError: dict object has no attribute id" := rfl
  rw [h]
  simp

/-- C9 amended: the two `missing_quizzes` definitions agree exactly on
the empty LMS quiz list; on any non-empty list of plain dictionaries
the views-module version raises AttributeError on its first attribute
access while the utils version returns the missing quizzes. -/
theorem missing_quizzes_views_vs_utils (table : List QuizRow) (quickcheck : Bool)
    (q : CanvasQuiz) (rest : List CanvasQuiz) :
    missing_quizzes_views table quickcheck []
      = Except.ok (missing_quizzes_utils table quickcheck [])
    ∧ missing_quizzes_views table quickcheck (q :: rest)
      = Except.error "AttributeError: dict object has no attribute id" :=
  ⟨rfl, rfl⟩

/-- C10: `search_users` is not total: a response whose body is a
non-error user list but whose headers carry no `last` page link makes
page-count extraction raise, and the non-raising `([], 0)` result is
exactly the error-body case. -/
theorem search_users_not_total :
    (∃ resp : UsersResponse, resp.body_is_error = false
        ∧ resp.user_list ≠ []
        ∧ resp.link_last_page = none
        ∧ search_users resp = Except.error "KeyError: last")
    ∧ (∀ resp : UsersResponse, resp.body_is_error = true →
        search_users resp = Except.ok ([], 0)) := by
  constructor
  · exact ⟨⟨false, [5], none⟩, rfl, by simp, rfl, rfl⟩
  · intro resp h
    simp [search_users, h]

/-- Witness for C10: the error-body case at a concrete response. -/
theorem search_users_not_total_witness :
    search_users ⟨true, [5], none⟩ = Except.ok ([], 0) :=
  search_users_not_total.2 ⟨true, [5], none⟩ rfl

/-- The (course_id, user_id) key of an `Extension` row. -/
def extKey (e : ExtensionRow) : Int × Int := (e.course_id, e.user_id)

/-- At most one `Extension` row per (course_id, user_id) pair. -/
def extensionKeyUnique (extensions : List ExtensionRow) : Prop :=
  (extensions.map extKey).Nodup

/-- In-place mutation of the first matching row keeps the key multiset
of the table when the mutation preserves keys. -/
theorem updateFirst_map_key {α β : Type} (p : α → Bool) (f : α → α) (key : α → β)
    (hf : ∀ a, key (f a) = key a) (l : List α) :
    (updateFirst p f l).map key = l.map key := by
  induction l with
  | nil => rfl
  | cons x xs ih =>
      by_cases hx : p x = true
      · simp [updateFirst, hx, hf]
      · simp [updateFirst, hx, ih]

/-- The lookup-then-upsert on `Extension` preserves key uniqueness. -/
theorem upsertExtension_keyUnique (course_id user_id percent : Int)
    (extensions : List ExtensionRow) (h : extensionKeyUnique extensions) :
    extensionKeyUnique (upsertExtension course_id user_id percent extensions) := by
  unfold upsertExtension
  cases hfind : extensions.find? (fun e => e.course_id == course_id && e.user_id == user_id) with
  | none =>
      have hnotin : (course_id, user_id) ∉ extensions.map extKey := by
        intro hmem
        rcases List.mem_map.mp hmem with ⟨e, he, hkey⟩
        have hne := List.find?_eq_none.mp hfind e he
        apply hne
        have h1 : e.course_id = course_id := congrArg Prod.fst hkey
        have h2 : e.user_id = user_id := congrArg Prod.snd hkey
        simp [h1, h2]
      unfold extensionKeyUnique
      rw [List.map_append]
      simp only [List.map_cons, List.map_nil]
      rw [List.nodup_append]
      exact ⟨h, List.nodup_singleton _, by simpa [List.disjoint_singleton] using hnotin⟩
  | some e0 =>
      show (List.map extKey
        (updateFirst (fun e => e.course_id == course_id && e.user_id == user_id)
          (fun e => ⟨e.course_id, e.user_id, percent, e.active⟩) extensions)).Nodup
      rw [updateFirst_map_key (fun e => e.course_id == course_id && e.user_id == user_id)
        (fun e => ⟨e.course_id, e.user_id, percent, e.active⟩) extKey (fun a => rfl) extensions]
      exact h

/-- One user-loop iteration preserves `Extension` key uniqueness. -/
theorem processUser_keyUnique (lms : Lms) (course_id percent user_id : Int)
    (db : Db) (h : extensionKeyUnique db.extensions) :
    extensionKeyUnique (processUser lms course_id percent user_id db).1.extensions := by
  unfold processUser
  cases hu : lms.user user_id with
  | none => simpa using h
  | some cu => exact upsertExtension_keyUnique _ _ _ _ h

/-- The whole user loop preserves `Extension` key uniqueness. -/
theorem processUsers_keyUnique (lms : Lms) (course_id percent : Int)
    (user_ids : List Int) (db : Db) (h : extensionKeyUnique db.extensions) :
    extensionKeyUnique (processUsers lms course_id percent user_ids db).1.extensions := by
  induction user_ids generalizing db with
  | nil => simpa [processUsers] using h
  | cons uid rest ih =>
      simp only [processUsers]
      exact ih _ (processUser_keyUnique lms course_id percent uid db h)

/-- The quiz loop never writes the `Extension` table. -/
theorem processQuizzes_extensions_eq (lms : Lms) (course_id percent : Int)
    (user_ids : List Int) (quizzes : List CanvasQuiz) (db : Db) :
    (processQuizzes lms course_id percent user_ids quizzes db).db.extensions
      = db.extensions := by
  induction quizzes generalizing db with
  | nil => rfl
  | cons quiz rest ih =>
      simp only [processQuizzes]
      by_cases hs : (extend_quiz course_id quiz percent user_ids lms.postStatus).1.success = true
      · rw [if_pos hs]
        cases (extend_quiz course_id quiz percent user_ids lms.postStatus).1.added_time with
        | none => exact ih _
        | some t => exact ih _
      · rw [if_neg hs]

/-- The post-validation body of `update` preserves key uniqueness. -/
theorem updateMain_keyUnique (course_id percent : Int) (user_ids : List Int)
    (lms : Lms) (db1 : Db) (h : extensionKeyUnique db1.extensions) :
    extensionKeyUnique ((updateMain course_id percent user_ids lms db1).2.1.extensions) := by
  unfold updateMain
  have hu := processUsers_keyUnique lms course_id percent user_ids db1 h
  split
  · exact hu
  · show extensionKeyUnique
      (processQuizzes lms course_id percent user_ids lms.quizzes
        (processUsers lms course_id percent user_ids db1).1).db.extensions
    rw [processQuizzes_extensions_eq]
    exact hu

/-- C7: every run of `update` preserves the invariant that at most one
`Extension` row exists per (course_id, user_id) pair, the upsert
updating an existing row in place and creating a row only when none
exists for the pair. -/
theorem update_preserves_extension_uniqueness (course_id : Int)
    (post_json : Option UpdateBody) (lms : Lms) (db : Db)
    (h : extensionKeyUnique db.extensions) :
    extensionKeyUnique ((update course_id post_json lms db).2.1.extensions) := by
  unfold update
  split
  · exact h
  · split
    · exact h
    · split
      · exact h
      · exact updateMain_keyUnique _ _ _ _ _ h

/-- Witness for C7: a run of `update` on a database holding one
extension row, with a request updating that same user. -/
theorem update_preserves_extension_uniqueness_witness :
    extensionKeyUnique [⟨1, 11, 150, true⟩]
    ∧ extensionKeyUnique
        ((update 1 (some ⟨some [11], some 200⟩)
            ⟨⟨some 1, some "Example Course"⟩,
             fun u => some ⟨some u, some "John Smith", none⟩,
             [], fun _p => 200⟩
            ⟨[], [], [⟨1, 11, 150, true⟩], []⟩).2.1.extensions) :=
  ⟨by unfold extensionKeyUnique; decide,
   update_preserves_extension_uniqueness 1 (some ⟨some [11], some 200⟩)
     ⟨⟨some 1, some "Example Course"⟩,
      fun u => some ⟨some u, some "John Smith", none⟩,
      [], fun _p => 200⟩
     ⟨[], [], [⟨1, 11, 150, true⟩], []⟩ (by unfold extensionKeyUnique; decide)⟩

/-- C8: a user id whose LMS fetch 404s is skipped by the user loop of
`update`: its iteration leaves the database untouched (no `User` or
`Extension` row created or updated), logs only the attempted GET, and
the remaining user ids are processed exactly as they would have been
without it. -/
theorem update_skips_404_user (lms : Lms) (course_id percent user_id : Int)
    (rest : List Int) (db : Db) (h404 : lms.user user_id = none) :
    processUser lms course_id percent user_id db = (db, [LmsCall.getUser user_id])
    ∧ processUsers lms course_id percent (user_id :: rest) db
      = ((processUsers lms course_id percent rest db).1,
         LmsCall.getUser user_id :: (processUsers lms course_id percent rest db).2) := by
  have h1 : processUser lms course_id percent user_id db
      = (db, [LmsCall.getUser user_id]) := by
    unfold processUser
    rw [h404]
  refine ⟨h1, ?_⟩
  simp [processUsers, h1]

/-- Witness for C8: user 12 404s while user 13 resolves. -/
theorem update_skips_404_user_witness :
    (⟨⟨some 1, some "Example Course"⟩,
      fun u => if u == 12 then none else some ⟨some u, some "Jack Smith", none⟩,
      [], fun _p => 200⟩ : Lms).user 12 = none
    ∧ processUser
        ⟨⟨some 1, some "Example Course"⟩,
         fun u => if u == 12 then none else some ⟨some u, some "Jack Smith", none⟩,
         [], fun _p => 200⟩ 1 200 12 ⟨[], [], [], []⟩
        = (⟨[], [], [], []⟩, [LmsCall.getUser 12])
    ∧ processUsers
        ⟨⟨some 1, some "Example Course"⟩,
         fun u => if u == 12 then none else some ⟨some u, some "Jack Smith", none⟩,
         [], fun _p => 200⟩ 1 200 [12, 13] ⟨[], [], [], []⟩
        = ((processUsers
             ⟨⟨some 1, some "Example Course"⟩,
              fun u => if u == 12 then none else some ⟨some u, some "Jack Smith", none⟩,
              [], fun _p => 200⟩ 1 200 [13] ⟨[], [], [], []⟩).1,
           LmsCall.getUser 12 :: (processUsers
             ⟨⟨some 1, some "Example Course"⟩,
              fun u => if u == 12 then none else some ⟨some u, some "Jack Smith", none⟩,
              [], fun _p => 200⟩ 1 200 [13] ⟨[], [], [], []⟩).2) :=
  ⟨rfl,
   update_skips_404_user
     ⟨⟨some 1, some "Example Course"⟩,
      fun u => if u == 12 then none else some ⟨some u, some "Jack Smith", none⟩,
      [], fun _p => 200⟩ 1 200 12 [13] ⟨[], [], [], []⟩ rfl⟩

/-- C6 counterexample: a concrete `update` request with a JSON body
but no percent value is rejected with `percent required`, yet its LMS
call log is not empty — the course fetch has already happened. -/
theorem update_percent_required_after_lms_call :
    (update 1 (some ⟨some [11, 12], none⟩)
        ⟨⟨some 1, some "Example Course"⟩, fun _u => none, [], fun _p => 200⟩
        ⟨[], [], [], []⟩).1 = UpdateResult.percentRequired
    ∧ (update 1 (some ⟨some [11, 12], none⟩)
        ⟨⟨some 1, some "Example Course"⟩, fun _u => none, [], fun _p => 200⟩
        ⟨[], [], [], []⟩).2.2 = [LmsCall.getCourse 1]
    ∧ [LmsCall.getCourse 1] ≠ ([] : List LmsCall) :=
  ⟨rfl, rfl, by simp⟩

/-- C6 amended: an absent JSON body is rejected with `invalid request`
before any LMS call; an absent (or zero) percent is rejected with
`percent required` after exactly one LMS call — the course fetch —
and before any user or quiz LMS calls. -/
theorem update_input_validation (course_id : Int) (lms : Lms) (db : Db)
    (body : UpdateBody) (hp : body.percent = none ∨ body.percent = some 0) :
    update course_id none lms db = (UpdateResult.invalidRequest, db, [])
    ∧ update course_id (some body) lms db
      = (UpdateResult.percentRequired,
         ⟨upsertCourse course_id (lms.course.name.getD "<UNNAMED COURSE>") db.courses,
          db.users, db.extensions, db.quizzes⟩,
         [LmsCall.getCourse course_id]) := by
  refine ⟨rfl, ?_⟩
  obtain ⟨user_ids, percent⟩ := body
  rcases hp with hp | hp
  · have hp' : percent = none := hp
    subst hp'
    rfl
  · have hp' : percent = some 0 := hp
    subst hp'
    rfl

/-- Witness for C6 amended: both rejection paths at concrete inputs. -/
theorem update_input_validation_witness :
    ((⟨some [11, 12], none⟩ : UpdateBody).percent = none
        ∨ (⟨some [11, 12], none⟩ : UpdateBody).percent = some 0)
    ∧ update 1 none
        ⟨⟨some 1, some "Example Course"⟩, fun _u => none, [], fun _p => 200⟩
        ⟨[], [], [], []⟩
        = (UpdateResult.invalidRequest, ⟨[], [], [], []⟩, [])
    ∧ update 1 (some ⟨some [11, 12], none⟩)
        ⟨⟨some 1, some "Example Course"⟩, fun _u => none, [], fun _p => 200⟩
        ⟨[], [], [], []⟩
        = (UpdateResult.percentRequired,
           ⟨upsertCourse 1
              ((⟨⟨some 1, some "Example Course"⟩, fun _u => none, [], fun _p => 200⟩ : Lms).course.name.getD
                "<UNNAMED COURSE>") [],
            [], [], []⟩,
           [LmsCall.getCourse 1]) :=
  ⟨Or.inl rfl,
   update_input_validation 1
     ⟨⟨some 1, some "Example Course"⟩, fun _u => none, [], fun _p => 200⟩
     ⟨[], [], [], []⟩ ⟨some [11, 12], none⟩ (Or.inl rfl)⟩

/-- A failing extension push ends the quiz loop at once: the result of
the loop on `q :: rest` never looks at `rest`. -/
theorem processQuizzes_cons_fail (lms : Lms) (course_id percent : Int)
    (user_ids : List Int) (q : CanvasQuiz) (rest : List CanvasQuiz) (db : Db)
    (hfail : (extend_quiz course_id q percent user_ids lms.postStatus).1.success = false) :
    processQuizzes lms course_id percent user_ids (q :: rest) db
      = ⟨some (extend_quiz course_id q percent user_ids lms.postStatus).1.message,
         ⟨db.courses, db.users, db.extensions, upsertQuiz course_id q db.quizzes⟩,
         (extend_quiz course_id q percent user_ids lms.postStatus).2.map LmsCall.postExtensions,
         [], []⟩ := by
  simp [processQuizzes, hfail]

/-- Running the quiz loop on `pre ++ q :: rest` where all of `pre`
succeeds and `q` fails yields the failure message of `q`, the
database of the `pre` run with `q` upserted on top (nothing rolled
back), the calls of the `pre` run followed by the one failing POST
(nothing retried), and the accumulators of the `pre` run — all of it
independent of `rest`. -/
theorem processQuizzes_halt (lms : Lms) (course_id percent : Int) (user_ids : List Int)
    (pre : List CanvasQuiz) (rest : List CanvasQuiz) (q : CanvasQuiz) (db : Db)
    (hpre : ∀ q' ∈ pre,
      (extend_quiz course_id q' percent user_ids lms.postStatus).1.success = true)
    (hfail : (extend_quiz course_id q percent user_ids lms.postStatus).1.success = false) :
    processQuizzes lms course_id percent user_ids (pre ++ q :: rest) db
      = ⟨some (extend_quiz course_id q percent user_ids lms.postStatus).1.message,
         ⟨(processQuizzes lms course_id percent user_ids pre db).db.courses,
          (processQuizzes lms course_id percent user_ids pre db).db.users,
          (processQuizzes lms course_id percent user_ids pre db).db.extensions,
          upsertQuiz course_id q (processQuizzes lms course_id percent user_ids pre db).db.quizzes⟩,
         (processQuizzes lms course_id percent user_ids pre db).calls
           ++ (extend_quiz course_id q percent user_ids lms.postStatus).2.map LmsCall.postExtensions,
         (processQuizzes lms course_id percent user_ids pre db).quiz_time_list,
         (processQuizzes lms course_id percent user_ids pre db).unchanged_list⟩ := by
  induction pre generalizing db with
  | nil =>
      simpa [processQuizzes] using
        processQuizzes_cons_fail lms course_id percent user_ids q rest db hfail
  | cons x pre ih =>
      have hx := hpre x (by simp)
      have hpre' : ∀ q' ∈ pre,
          (extend_quiz course_id q' percent user_ids lms.postStatus).1.success = true :=
        fun q' hq' => hpre q' (by simp [hq'])
      simp only [List.cons_append, processQuizzes, hx, if_true]
      cases hat : (extend_quiz course_id x percent user_ids lms.postStatus).1.added_time with
      | some tx => simp [hat, ih _ hpre', List.append_assoc]
      | none => simp [hat, ih _ hpre', List.append_assoc]

/-- C5: when the extension POST for some quiz comes back non-200,
`extend_quiz` returns the structured failure (success false, message
naming the quiz id and the status code, no added time); the quiz loop
of `update` never looks at the remaining quizzes, and `update` returns
that one failure message; the pushes and local upserts done for the
earlier quizzes are kept as they were — neither retried (each POST of
the prefix appears once in the call log) nor rolled back. -/
theorem update_halts_on_post_failure
    (lms : Lms) (course_id percent t : Int) (user_ids : List Int)
    (pre rest : List CanvasQuiz) (q : CanvasQuiz) (db : Db) (body : UpdateBody)
    (ht : q.time_limit = some t) (h1 : 1 ≤ t)
    (hst : lms.postStatus (mkPost course_id q (extendDelta t percent) user_ids) ≠ 200)
    (hpre : ∀ q' ∈ pre,
      (extend_quiz course_id q' percent user_ids lms.postStatus).1.success = true)
    (hp0 : percent ≠ 0) (hb1 : body.percent = some percent)
    (hb2 : body.user_ids.getD [] = user_ids)
    (hq : lms.quizzes = pre ++ q :: rest) :
    (extend_quiz course_id q percent user_ids lms.postStatus).1
      = ⟨false,
         "Error creating extension for quiz #" ++ pyStrOptInt q.id
           ++ ". Canvas status code: "
           ++ toString (lms.postStatus (mkPost course_id q (extendDelta t percent) user_ids)),
         none⟩
    ∧ processQuizzes lms course_id percent user_ids (pre ++ q :: rest) db
        = processQuizzes lms course_id percent user_ids (pre ++ [q]) db
    ∧ processQuizzes lms course_id percent user_ids (pre ++ q :: rest) db
        = ⟨some (extend_quiz course_id q percent user_ids lms.postStatus).1.message,
           ⟨(processQuizzes lms course_id percent user_ids pre db).db.courses,
            (processQuizzes lms course_id percent user_ids pre db).db.users,
            (processQuizzes lms course_id percent user_ids pre db).db.extensions,
            upsertQuiz course_id q (processQuizzes lms course_id percent user_ids pre db).db.quizzes⟩,
           (processQuizzes lms course_id percent user_ids pre db).calls
             ++ (extend_quiz course_id q percent user_ids lms.postStatus).2.map
                  LmsCall.postExtensions,
           (processQuizzes lms course_id percent user_ids pre db).quiz_time_list,
           (processQuizzes lms course_id percent user_ids pre db).unchanged_list⟩
    ∧ (update course_id (some body) lms db).1
        = UpdateResult.updateError
            ((extend_quiz course_id q percent user_ids lms.postStatus).1.message) := by
  have hbeq : (lms.postStatus (mkPost course_id q (extendDelta t percent) user_ids) == 200)
      = false := by
    exact beq_eq_false_iff_ne.mpr hst
  have hres : (extend_quiz course_id q percent user_ids lms.postStatus).1
      = ⟨false,
         "Error creating extension for quiz #" ++ pyStrOptInt q.id
           ++ ". Canvas status code: "
           ++ toString (lms.postStatus (mkPost course_id q (extendDelta t percent) user_ids)),
         none⟩ := by
    simp [extend_quiz, ht, if_neg (by omega : ¬ t < 1), hbeq]
  have hfail : (extend_quiz course_id q percent user_ids lms.postStatus).1.success = false := by
    rw [hres]
  refine ⟨hres, ?_, ?_, ?_⟩
  · rw [processQuizzes_halt lms course_id percent user_ids pre rest q db hpre hfail,
      processQuizzes_halt lms course_id percent user_ids pre [] q db hpre hfail]
  · exact processQuizzes_halt lms course_id percent user_ids pre rest q db hpre hfail
  · obtain ⟨bu, bp⟩ := body
    have hb1' : bp = some percent := hb1
    subst hb1'
    have hb2' : bu.getD [] = user_ids := hb2
    have hz : (percent == 0) = false := beq_eq_false_iff_ne.mpr hp0
    show (update course_id (some ⟨bu, some percent⟩) lms db).1
        = UpdateResult.updateError
            ((extend_quiz course_id q percent user_ids lms.postStatus).1.message)
    unfold update
    simp only [hz, Bool.false_eq_true, if_false]
    unfold updateMain
    rw [hb2', hq]
    have hlen : ¬ (pre ++ q :: rest).length < 1 := by
      simp [List.length_append]
    rw [if_neg hlen]
    simp only [processQuizzes_halt lms course_id percent user_ids pre rest q _ hpre hfail]

/-- Witness for C5: a single quiz whose extension POST returns 404. -/
theorem update_halts_on_post_failure_witness :
    (1 : Int) ≤ 10
    ∧ (update 1 (some ⟨some [11], some 200⟩)
        ⟨⟨some 1, some "Example Course"⟩,
         fun u => some ⟨some u, some "Joe Schmoe", none⟩,
         [⟨some 4, some "Quiz 4", some 10⟩], fun _p => 404⟩
        ⟨[], [], [], []⟩).1
      = UpdateResult.updateError
          ((extend_quiz 1 ⟨some 4, some "Quiz 4", some 10⟩ 200 [11]
            (⟨⟨some 1, some "Example Course"⟩,
              fun u => some ⟨some u, some "Joe Schmoe", none⟩,
              [⟨some 4, some "Quiz 4", some 10⟩], fun _p => 404⟩ : Lms).postStatus).1.message) :=
  ⟨by norm_num,
   (update_halts_on_post_failure
     ⟨⟨some 1, some "Example Course"⟩,
      fun u => some ⟨some u, some "Joe Schmoe", none⟩,
      [⟨some 4, some "Quiz 4", some 10⟩], fun _p => 404⟩
     1 200 10 [11] [] [] ⟨some 4, some "Quiz 4", some 10⟩
     ⟨[], [], [], []⟩ ⟨some [11], some 200⟩
     rfl (by norm_num) (by decide) (by simp) (by norm_num) rfl rfl rfl).2.2.2⟩

/-- C3: evidence against the claim at its failing input.  The
`views.py` `refresh` performs no user lookups and never writes the
database, so on a course whose sole Extension belongs to a user the
LMS now 404s, the extension row keeps `active = true`; on this input
`refresh` in fact raises AttributeError inside the views-module
`missing_quizzes` before pushing anything.  In general `refresh`
leaves the database unchanged and issues no user GET at all, while
`test_refresh_inactive_user` in `tests.py` requires the flag to
become false. -/
theorem refresh_leaves_extension_active :
    (refresh
        ⟨⟨some 1, some "Example Course"⟩, fun _u => none,
         [⟨some 1, some "Quiz 1", some 10⟩, ⟨some 2, some "Quiz 2", some 30⟩],
         fun _p => 200⟩
        1
        ⟨[⟨1, "Example Course"⟩], [⟨"Missing User", some 9001, none⟩],
         [⟨1, 9001, 200, true⟩], []⟩).2.1
      = ⟨[⟨1, "Example Course"⟩], [⟨"Missing User", some 9001, none⟩],
         [⟨1, 9001, 200, true⟩], []⟩
    ∧ (refresh
        ⟨⟨some 1, some "Example Course"⟩, fun _u => none,
         [⟨some 1, some "Quiz 1", some 10⟩, ⟨some 2, some "Quiz 2", some 30⟩],
         fun _p => 200⟩
        1
        ⟨[⟨1, "Example Course"⟩], [⟨"Missing User", some 9001, none⟩],
         [⟨1, 9001, 200, true⟩], []⟩).1
      = Except.error "AttributeError: dict object has no attribute id"
    ∧ (∀ (lms : Lms) (course_id : Int) (db : Db),
        (refresh lms course_id db).2.1 = db)
    ∧ (∀ (lms : Lms) (course_id : Int) (db : Db) (uid : Int),
        LmsCall.getUser uid ∉ (refresh lms course_id db).2.2) := by
  refine ⟨rfl, rfl, ?_, ?_⟩
  · intro lms course_id db
    unfold refresh
    split
    · rfl
    · cases hmv : missing_quizzes_views db.quizzes false lms.quizzes with
      | error e => simp [hmv]
      | ok missing => simp [hmv]
  · intro lms course_id db uid
    unfold refresh
    split
    · simp
    · cases hmv : missing_quizzes_views db.quizzes false lms.quizzes with
      | error e => simp [hmv]
      | ok missing =>
          simp only [hmv]
          intro hmem
          simp only [List.mem_cons, List.mem_map] at hmem
          rcases hmem with hmem | ⟨p, _hp, hmem⟩
          · exact LmsCall.noConfusion hmem
          · exact LmsCall.noConfusion hmem

end QuizExtensions
